import Mathlib

/- Shallow embedding of src/app.py (CleanFoam Pro): a Streamlit single-page
   ledger tool that records worker payout entries, computes a fee from a
   lookup table with two fallback rules, derives a remaining balance, and
   sums the collection into three aggregate figures.  Python decimals are
   modelled as rationals; the empty-string placeholders that CF entries
   store in their Due/Withdrawn/Remaining cells are modelled as `none` of
   `Option ℚ` (pandas coerces them to 0 when summing, modelled by `toNum`). -/

namespace CleanFoamPro

/-- Entry type selector of the sidebar radio widget: Standard or CF. -/
inductive EntryType where
  | Standard
  | CF
deriving DecidableEq, Repr

/-- One worker record, mirroring the dictionary built by `create_worker_row`
(keys ID, Worker, Total, Due, Withdrawn, Remaining, Note, EntryType). -/
structure WorkerRow where
  worker_id : String
  name : String
  total : ℚ
  due : Option ℚ
  withdrawn : Option ℚ
  remaining : Option ℚ
  note : String
  entry_type : EntryType
deriving DecidableEq, Repr

/-- Python `int(q)` on a rational: truncation toward zero, which is exactly
what `Int.div` of the numerator by the denominator computes. -/
def pyInt (q : ℚ) : ℤ :=
  Int.tdiv q.num (q.den : ℤ)

/-- The fee dictionary of `compute_fee` (src/app.py line 43):
`{80.0: 20.0, 90.0: 20.0, 95.0: 22.5, 100.0: 25.0, 105.0: 27.5, 110.0: 25.0}`,
as the exact-equality lookup `rules.get(total_value)`. -/
def fee_rules (t : ℚ) : Option ℚ :=
  if t = 80 then some 20
  else if t = 90 then some 20
  else if t = 95 then some (45/2)
  else if t = 100 then some 25
  else if t = 105 then some (55/2)
  else if t = 110 then some 25
  else none

/-- Lines 44-49 of src/app.py: table hit wins, then the two fallbacks
(`int(total_value) % 10 == 5` gives 32.5, anything else 30.0).  Python `%`
on a positive modulus agrees with `Int.emod`, the `%` of `ℤ`. -/
def fee_from_rules (t : ℚ) : ℚ :=
  match fee_rules t with
  | some fee => fee
  | none => if pyInt t % 10 = 5 then 65/2 else 30

/-- src/app.py lines 39-49: a positive `custom_due` is returned verbatim,
otherwise the table plus the fallback rules decide the fee. -/
def compute_fee (total_value : ℚ) (custom_due : Option ℚ) : ℚ :=
  match custom_due with
  | some c => if 0 < c then c else fee_from_rules total_value
  | none => fee_from_rules total_value

/-- src/app.py line 51: factory for a worker record. -/
def create_worker_row (worker_id name : String) (total : ℚ)
    (due withdrawn remaining : Option ℚ) (note : String)
    (entry_type : EntryType) : WorkerRow :=
  { worker_id := worker_id, name := name, total := total, due := due,
    withdrawn := withdrawn, remaining := remaining, note := note,
    entry_type := entry_type }

/-- The Add Worker button handler of `show_sidebar` (src/app.py lines
75-91): empty name rejected, non-positive total rejected for Standard
entries, CF entries appended with blank Due/Withdrawn/Remaining, Standard
entries appended with the computed fee and remaining balance. -/
def addWorker (workers : List WorkerRow) (wid name : String)
    (total_value withdrawn_val : ℚ) (entry_type : EntryType)
    (due_custom_val : ℚ) (note_text : String) : List WorkerRow :=
  if name = "" then workers
  else if total_value ≤ 0 ∧ entry_type = EntryType.Standard then workers
  else if entry_type = EntryType.CF then
    workers ++ [create_worker_row wid name total_value none none none
      note_text EntryType.CF]
  else
    let fee := compute_fee total_value
      (if 0 < due_custom_val then some due_custom_val else none)
    let remaining := total_value / 2 - withdrawn_val - fee
    workers ++ [create_worker_row wid name total_value (some fee)
      (some withdrawn_val) (some remaining) note_text EntryType.Standard]

/-- Body of the save loop of `handle_edit_dialog` (src/app.py lines
169-173): name, total, withdrawn and note are overwritten for every entry
type; due and remaining are recomputed only for Standard entries. -/
def updateWorker (w : WorkerRow) (name : String) (total withdrawn : ℚ)
    (note : String) : WorkerRow :=
  let w1 : WorkerRow :=
    { w with
      name := name, total := total, withdrawn := some withdrawn,
      note := note }
  if w.entry_type = EntryType.Standard then
    let fee := compute_fee total none
    { w1 with due := some fee, remaining := some (total / 2 - withdrawn - fee) }
  else
    w1

/-- The Save Changes loop of `handle_edit_dialog` (src/app.py lines
167-174): walk the list, update the first entry whose ID matches
`action_id`, then break; a missing ID updates nothing. -/
def editSave (workers : List WorkerRow) (action_id name : String)
    (total withdrawn : ℚ) (note : String) : List WorkerRow :=
  match workers with
  | [] => []
  | w :: rest =>
    if w.worker_id = action_id then
      updateWorker w name total withdrawn note :: rest
    else
      w :: editSave rest action_id name total withdrawn note

/-- The confirmed-deletion branch of `handle_delete_dialog` (src/app.py
line 191): keep every worker whose ID differs from `action_id`. -/
def deleteWorker (workers : List WorkerRow) (action_id : String) :
    List WorkerRow :=
  workers.filter fun w => decide (w.worker_id ≠ action_id)

/-- Numeric coercion of the summary block (src/app.py line 140):
`pd.to_numeric(..., errors='coerce').fillna(0)` sends the blank cells of CF
entries to 0 and keeps numbers unchanged. -/
def toNum (v : Option ℚ) : ℚ :=
  v.getD 0

/-- Column sum of Total in the financial summary (src/app.py line 142). -/
def total_sum (ws : List WorkerRow) : ℚ :=
  (ws.map fun w => w.total).sum

/-- Column sum of Withdrawn after coercion (src/app.py line 142). -/
def withdrawn_sum (ws : List WorkerRow) : ℚ :=
  (ws.map fun w => toNum w.withdrawn).sum

/-- Column sum of Remaining after coercion (src/app.py line 142). -/
def remaining_sum (ws : List WorkerRow) : ℚ :=
  (ws.map fun w => toNum w.remaining).sum

/-- src/app.py line 143: `for_workers = withdrawn_sum + remaining_sum`. -/
def for_workers (ws : List WorkerRow) : ℚ :=
  withdrawn_sum ws + remaining_sum ws

/-- src/app.py line 144: `for_cleanfoam = total_sum - for_workers`. -/
def for_cleanfoam (ws : List WorkerRow) : ℚ :=
  total_sum ws - for_workers ws

/-- Sum of Total over CF-only entries, the entries whose due and remaining
cells are absent (spec section 4.2). -/
def cf_only_total_sum (entries : List WorkerRow) : ℚ :=
  ((entries.filter fun w => decide (w.due = none ∧ w.remaining = none)).map
    fun w => w.total).sum

/-- Result record of the spec's aggregate contract. -/
structure AggregateResult where
  total : ℚ
  for_workers : ℚ
  for_business : ℚ
deriving DecidableEq, Repr

/-- Modelled from the spec: the `include_cf`-aware aggregate of section 4.2
appears only in repository iterations that are not under src (src/app.py
always sums every entry, i.e. behaves as `include_cf = true`).  Per the
spec: `total = sum(total)` across all entries when `include_cf` is true,
and when false the sum of `total` over CF-only entries is subtracted;
`for_workers = sum(withdrawn) + sum(remaining)`;
`for_business = total - for_workers`. -/
def aggregate (entries : List WorkerRow) (include_cf : Bool) :
    AggregateResult :=
  let t := if include_cf then total_sum entries
           else total_sum entries - cf_only_total_sum entries
  let fw := for_workers entries
  { total := t, for_workers := fw, for_business := t - fw }

/-- Fee rule exactly as claim C1 words it: the table value for totals 80,
90, 95, 100, 105, 110; otherwise 32.5 when `int(total) % 10 == 5`, and 30
in all remaining cases. -/
def feeSpecC1 (t : ℚ) : ℚ :=
  if t = 80 then 20
  else if t = 90 then 20
  else if t = 95 then 45/2
  else if t = 100 then 25
  else if t = 105 then 55/2
  else if t = 110 then 25
  else if pyInt t % 10 = 5 then 65/2
  else 30

/-- Invariant of claim C3 on a single row: a Standard entry carries a due
fee, a withdrawn amount, and the remaining balance derived from them. -/
def standardInv (w : WorkerRow) : Prop :=
  w.entry_type = EntryType.Standard →
    ∃ d wd, w.due = some d ∧ w.withdrawn = some wd ∧
      w.remaining = some (w.total / 2 - wd - d)

/-- Concrete string: a worker id. -/
def sW1 : String := "w1"

/-- Concrete string: a second worker id. -/
def sW2 : String := "w2"

/-- Concrete string: an id matching no stored worker. -/
def sZZ : String := "zz"

/-- Concrete string: a worker name. -/
def sAnn : String := "Ann"

/-- Concrete string: another worker name. -/
def sBob : String := "Bob"

/-- Concrete string: the empty text. -/
def sNil : String := ""

/-- Concrete Standard row as `addWorker` would create it for total 100,
withdrawn 10, no override: fee 25, remaining 100/2 - 10 - 25 = 15. -/
def wStd : WorkerRow :=
  create_worker_row sW1 sAnn 100 (some 25) (some 10) (some 15) sNil
    EntryType.Standard

/-- Concrete Standard row created with a custom due override of 40 at
total 100, withdrawn 10: remaining 100/2 - 10 - 40 = 0. -/
def wCustom : WorkerRow :=
  create_worker_row sW2 sAnn 100 (some 40) (some 10) (some 0) sNil
    EntryType.Standard

lemma fee_from_rules_eq_spec (t : ℚ) : fee_from_rules t = feeSpecC1 t := by
  unfold fee_from_rules fee_rules feeSpecC1
  split_ifs <;> rfl

lemma pyInt_eq_floor (q : ℚ) (h : 0 ≤ q) : pyInt q = ⌊q⌋ := by
  unfold pyInt
  rw [Rat.floor_def]
  exact Int.tdiv_eq_ediv (Rat.num_nonneg.mpr h) (by positivity)

lemma pyInt_near_hundred : pyInt (200000001/2000000 : ℚ) = 100 := by
  rw [pyInt_eq_floor _ (by norm_num)]
  rw [Int.floor_eq_iff]
  constructor <;> norm_num

lemma fee_near_hundred : compute_fee (100 + 1/2000000) none = 30 := by
  norm_num [compute_fee, fee_from_rules, fee_rules, pyInt_near_hundred]

/-- C1: with no positive override supplied, compute_fee returns the table
value for totals 80, 90, 95, 100, 105, 110 (fees 20, 20, 22.5, 25, 27.5,
25), otherwise 32.5 when int(total) mod 10 = 5 and 30.0 in all remaining
cases; in particular the four quoted examples hold. -/
theorem claim_C1 (t : ℚ) (cd : Option ℚ) (h : ∀ v, cd = some v → ¬ 0 < v) :
    compute_fee t cd = feeSpecC1 t ∧
    compute_fee 100 none = 25 ∧ compute_fee 105 none = 55/2 ∧
    compute_fee 35 none = 65/2 ∧ compute_fee 42 none = 30 := by
  refine ⟨?_, by rfl, by rfl, by rfl, by rfl⟩
  cases cd with
  | none => exact fee_from_rules_eq_spec t
  | some c =>
    have hc : ¬ 0 < c := h c rfl
    simp only [compute_fee, if_neg hc]
    exact fee_from_rules_eq_spec t

theorem claim_C1_witness :
    compute_fee 100 none = feeSpecC1 100 ∧
    compute_fee 100 none = 25 ∧ compute_fee 105 none = 55/2 ∧
    compute_fee 35 none = 65/2 ∧ compute_fee 42 none = 30 :=
  claim_C1 100 none (fun _ hv => nomatch hv)

/-- C2: a positive override is returned verbatim, regardless of the
total. -/
theorem claim_C2 (t v : ℚ) (h : 0 < v) : compute_fee t (some v) = v := by
  simp [compute_fee, h]

theorem claim_C2_witness : (0 : ℚ) < 7 ∧ compute_fee 100 (some 7) = 7 :=
  ⟨by norm_num, claim_C2 100 7 (by norm_num)⟩

/-- C4: in the financial summary, for_workers is the withdrawn column sum
plus the remaining column sum (blank CF cells coerced to 0 by toNum),
for_cleanfoam is total_sum minus for_workers, and hence the two figures
add back up to total_sum. -/
theorem claim_C4 (ws : List WorkerRow) :
    for_workers ws = withdrawn_sum ws + remaining_sum ws ∧
    for_cleanfoam ws = total_sum ws - for_workers ws ∧
    for_workers ws + for_cleanfoam ws = total_sum ws := by
  refine ⟨rfl, rfl, ?_⟩
  unfold for_cleanfoam
  ring

/-- C5 counterexample: the table lookup is not tolerance-based.  The total
100 + 1/2000000 lies within 1e-6 of the key 100, yet compute_fee returns
the fallback fee 30 rather than the table fee 25. -/
theorem claim_C5_counterexample :
    |(100 + 1/2000000 : ℚ) - 100| ≤ 1/1000000 ∧
    (100 + 1/2000000 : ℚ) ≠ 100 ∧
    compute_fee (100 + 1/2000000) none = 30 ∧
    compute_fee (100 + 1/2000000) none ≠ 25 := by
  refine ⟨?_, by norm_num, fee_near_hundred, ?_⟩
  · rw [show (100 + 1/2000000 : ℚ) - 100 = 1/2000000 by ring,
      abs_of_nonneg (by norm_num)]
    norm_num
  · rw [fee_near_hundred]
    norm_num

/-- C5 amended: the table lookup in compute_fee uses exact equality, not
tolerance-based equality: a total exactly equal to a table key returns
that key's fee, while a total within 1e-6 of a key but unequal to it
falls through to the fallback rules. -/
theorem claim_C5 :
    compute_fee 80 none = 20 ∧ compute_fee 90 none = 20 ∧
    compute_fee 95 none = 45/2 ∧ compute_fee 100 none = 25 ∧
    compute_fee 105 none = 55/2 ∧ compute_fee 110 none = 25 ∧
    compute_fee (100 + 1/2000000) none = 30 :=
  ⟨by rfl, by rfl, by rfl, by rfl, by rfl, by rfl, fee_near_hundred⟩

/-- C6: the spec-modelled aggregate takes an include_cf flag; its total is
the grand total when the flag is true, and the grand total minus the sum
over CF-only entries (absent due and remaining) when false. -/
theorem claim_C6 (entries : List WorkerRow) :
    (aggregate entries true).total = total_sum entries ∧
    (aggregate entries false).total =
      total_sum entries - cf_only_total_sum entries := by
  exact ⟨rfl, rfl⟩

/-- C7 counterexample: an Add of a CF entry with total 0 (non-positive) and
a non-empty name is not rejected: the collection gains an entry. -/
theorem claim_C7_counterexample :
    addWorker [] sW1 sBob 0 0 EntryType.CF 0 sNil =
      [create_worker_row sW1 sBob 0 none none none sNil EntryType.CF] ∧
    addWorker [] sW1 sBob 0 0 EntryType.CF 0 sNil ≠ [] := by
  refine ⟨by decide, by decide⟩

/-- C7 amended: an Add with an empty name is always rejected with the
collection unchanged; an Add with a non-positive total is rejected with
the collection unchanged when the entry type is Standard (a CF entry is
exempt from the total check). -/
theorem claim_C7 (workers : List WorkerRow) (wid nm : String)
    (tv wv : ℚ) (et : EntryType) (dcv : ℚ) (nt : String) :
    (nm = "" → addWorker workers wid nm tv wv et dcv nt = workers) ∧
    (et = EntryType.Standard → tv ≤ 0 →
      addWorker workers wid nm tv wv et dcv nt = workers) := by
  constructor
  · intro h
    simp [addWorker, h]
  · intro het htv
    unfold addWorker
    by_cases hn : nm = ""
    · simp [hn]
    · simp [hn, het, htv]

theorem claim_C7_witness :
    addWorker [] sW1 sNil 5 0 EntryType.Standard 0 sNil = [] ∧
    addWorker [] sW1 sBob 0 0 EntryType.Standard 0 sNil = [] :=
  ⟨(claim_C7 [] sW1 sNil 5 0 EntryType.Standard 0 sNil).1 rfl,
   (claim_C7 [] sW1 sBob 0 0 EntryType.Standard 0 sNil).2 rfl (by norm_num)⟩

lemma standardInv_updateWorker (w : WorkerRow) (nm : String) (t wd : ℚ)
    (nt : String) : standardInv (updateWorker w nm t wd nt) := by
  unfold standardInv updateWorker
  by_cases h : w.entry_type = EntryType.Standard
  · intro _
    exact ⟨compute_fee t none, wd, by simp [h], by simp [h], by simp [h]⟩
  · intro hc
    simp [h] at hc

lemma mem_editSave (ws : List WorkerRow) (aid nm : String) (t wd : ℚ)
    (nt : String) :
    ∀ w ∈ editSave ws aid nm t wd nt,
      w ∈ ws ∨ ∃ u, u ∈ ws ∧ w = updateWorker u nm t wd nt := by
  induction ws with
  | nil =>
    intro w hw
    simp [editSave] at hw
  | cons x rest ih =>
    intro w hw
    by_cases hx : x.worker_id = aid
    · simp only [editSave, if_pos hx, List.mem_cons] at hw
      rcases hw with h | h
      · exact Or.inr ⟨x, List.mem_cons_self x rest, h⟩
      · exact Or.inl (List.mem_cons_of_mem x h)
    · simp only [editSave, if_neg hx, List.mem_cons] at hw
      rcases hw with h | h
      · exact Or.inl (by simp [h])
      · rcases ih w h with h1 | ⟨u, hu, he⟩
        · exact Or.inl (List.mem_cons_of_mem x h1)
        · exact Or.inr ⟨u, List.mem_cons_of_mem x hu, he⟩

/-- C3: when every stored row satisfies the Standard invariant, every row
still satisfies it after an Add (of either entry type, with or without an
override) and after a saved Edit: in particular every Standard entry these
operations produce has remaining = total/2 - withdrawn - due, due being
the fee stored by that same operation. -/
theorem claim_C3 (workers : List WorkerRow) (wid nm : String) (tv wv : ℚ)
    (et : EntryType) (dcv : ℚ) (nt : String) (aid enm : String)
    (etv ewv : ℚ) (ent : String)
    (hinv : ∀ w ∈ workers, standardInv w) :
    (∀ w ∈ addWorker workers wid nm tv wv et dcv nt, standardInv w) ∧
    (∀ w ∈ editSave workers aid enm etv ewv ent, standardInv w) := by
  constructor
  · intro w hw
    unfold addWorker at hw
    split_ifs at hw with h1 h2 h3 h4
    · exact hinv w hw
    · exact hinv w hw
    · rcases List.mem_append.mp hw with h | h
      · exact hinv w h
      · intro hc
        rw [List.mem_singleton.mp h] at hc
        exact absurd hc (by simp [create_worker_row])
    · simp only [List.mem_append, List.mem_singleton] at hw
      rcases hw with h | h
      · exact hinv w h
      · intro _
        rw [h]
        exact ⟨_, wv, rfl, rfl, rfl⟩
    · simp only [List.mem_append, List.mem_singleton] at hw
      rcases hw with h | h
      · exact hinv w h
      · intro _
        rw [h]
        exact ⟨_, wv, rfl, rfl, rfl⟩
  · intro w hw
    rcases mem_editSave workers aid enm etv ewv ent w hw with h | ⟨u, _, he⟩
    · exact hinv w h
    · rw [he]
      exact standardInv_updateWorker u enm etv ewv ent

theorem claim_C3_witness :
    (∀ w ∈ addWorker [] sW1 sAnn 100 10 EntryType.Standard 0 sNil,
      standardInv w) ∧
    (∀ w ∈ editSave [] sW1 sAnn 100 10 sNil, standardInv w) :=
  claim_C3 [] sW1 sAnn 100 10 EntryType.Standard 0 sNil sW1 sAnn 100 10 sNil
    (by simp)

lemma editSave_append (pre post : List WorkerRow) (w : WorkerRow)
    (nm : String) (t wd : ℚ) (nt : String)
    (hpre : ∀ u ∈ pre, u.worker_id ≠ w.worker_id) :
    editSave (pre ++ w :: post) w.worker_id nm t wd nt =
      pre ++ updateWorker w nm t wd nt :: post := by
  induction pre with
  | nil => simp [editSave]
  | cons x rest ih =>
    have hx : x.worker_id ≠ w.worker_id := hpre x (List.mem_cons_self x rest)
    simp only [List.cons_append, editSave, if_neg hx, List.append_eq]
    rw [ih (fun u hu => hpre u (List.mem_cons_of_mem x hu))]

/-- C8: saving an edit on the first row whose id matches rewrites that row
in place; a Standard row gets due and remaining recomputed from the new
total and withdrawn, while a CF row keeps its due and remaining cells
untouched. -/
theorem claim_C8 (pre post : List WorkerRow) (w : WorkerRow) (nm : String)
    (t wd : ℚ) (nt : String)
    (hpre : ∀ u ∈ pre, u.worker_id ≠ w.worker_id) :
    ∃ w2, editSave (pre ++ w :: post) w.worker_id nm t wd nt =
        pre ++ w2 :: post ∧
      (w.entry_type = EntryType.Standard →
        w2.due = some (compute_fee t none) ∧
        w2.remaining = some (t / 2 - wd - compute_fee t none)) ∧
      (w.entry_type = EntryType.CF →
        w2.due = w.due ∧ w2.remaining = w.remaining) := by
  refine ⟨updateWorker w nm t wd nt,
    editSave_append pre post w nm t wd nt hpre, ?_, ?_⟩
  · intro h
    unfold updateWorker
    simp [h]
  · intro h
    have hns : w.entry_type ≠ EntryType.Standard := by simp [h]
    unfold updateWorker
    simp [hns]

theorem claim_C8_witness :
    ∃ w2, editSave [wStd] wStd.worker_id sAnn 110 10 sNil = [w2] ∧
      (wStd.entry_type = EntryType.Standard →
        w2.due = some (compute_fee 110 none) ∧
        w2.remaining = some (110 / 2 - 10 - compute_fee 110 none)) ∧
      (wStd.entry_type = EntryType.CF →
        w2.due = wStd.due ∧ w2.remaining = wStd.remaining) :=
  claim_C8 [] [] wStd sAnn 110 10 sNil (by simp)

lemma editSave_no_match (ws : List WorkerRow) (aid nm : String) (t wd : ℚ)
    (nt : String) (h : ∀ w ∈ ws, w.worker_id ≠ aid) :
    editSave ws aid nm t wd nt = ws := by
  induction ws with
  | nil => rfl
  | cons x rest ih =>
    have hx : x.worker_id ≠ aid := h x (List.mem_cons_self x rest)
    simp only [editSave, if_neg hx]
    rw [ih (fun w hw => h w (List.mem_cons_of_mem x hw))]

/-- C9: an edit save or a delete aimed at an id not present in the
collection changes nothing: both operations return the collection
unchanged. -/
theorem claim_C9 (workers : List WorkerRow) (aid nm : String) (t wd : ℚ)
    (nt : String) (h : ∀ w ∈ workers, w.worker_id ≠ aid) :
    editSave workers aid nm t wd nt = workers ∧
    deleteWorker workers aid = workers := by
  refine ⟨editSave_no_match workers aid nm t wd nt h, ?_⟩
  unfold deleteWorker
  rw [List.filter_eq_self]
  intro w hw
  simpa using h w hw

theorem claim_C9_witness :
    editSave [wStd] sZZ sAnn 100 10 sNil = [wStd] ∧
    deleteWorker [wStd] sZZ = [wStd] :=
  claim_C9 [wStd] sZZ sAnn 100 10 sNil (by decide)

/-- C10: a saved edit on a Standard row always stores
compute_fee(new_total, None) as the due fee: whenever the stored due
differed from that recomputed fee (for instance a custom override kept
from creation), the edit discards it, even when total and withdrawn are
resubmitted unchanged. -/
theorem claim_C10 (pre post : List WorkerRow) (w : WorkerRow)
    (nm : String) (t wd : ℚ) (nt : String)
    (hpre : ∀ u ∈ pre, u.worker_id ≠ w.worker_id)
    (hstd : w.entry_type = EntryType.Standard) :
    ∃ w2, editSave (pre ++ w :: post) w.worker_id nm t wd nt =
        pre ++ w2 :: post ∧
      w2.due = some (compute_fee t none) ∧
      (w.due ≠ some (compute_fee t none) → w2.due ≠ w.due) := by
  have hdue : (updateWorker w nm t wd nt).due = some (compute_fee t none) := by
    unfold updateWorker
    simp [hstd]
  refine ⟨updateWorker w nm t wd nt,
    editSave_append pre post w nm t wd nt hpre, hdue, ?_⟩
  intro hne hc
  exact hne (hc.symm.trans hdue)

theorem claim_C10_witness :
    ∃ w2, editSave [wCustom] wCustom.worker_id sAnn 100 10 sNil = [w2] ∧
      w2.due = some (compute_fee 100 none) ∧
      (wCustom.due ≠ some (compute_fee 100 none) → w2.due ≠ wCustom.due) :=
  claim_C10 [] [] wCustom sAnn 100 10 sNil (by simp) rfl

end CleanFoamPro
